import Mathlib

/-!
Verification of the MonitorSystemOPs monitoring agent (Rust) against its
design specification, via a shallow embedding of the relevant code.

Conventions of the embedding:
* Rust u64 / usize counters are modelled as Nat. All values produced by the
  embedded parser are bounded by 2^64, for which u64 saturating_sub coincides
  with Nat subtraction.
* Rust f32 percent fields are modelled as Rat. The probes obtain them by
  parsing plain decimal strings produced by PowerShell, and the only
  operations performed on them are comparison with 90.0 and one-decimal
  formatting, on which the Rat model agrees with f32 for all finitely
  representable decimal readings.
* A std::process::Command invocation is modelled by its observable result:
  an Except Unit (List Char) that is .ok stdout when the command ran and its
  exit status was success, and .error () otherwise. Rust strings fed to the
  numeric parsers are modelled as lists of characters, so that every
  embedded operation is computable by kernel reduction (the built-in String
  operations of this Lean version recurse on positions by well-founded
  recursion and do not reduce).
* The persistent newline-delimited JSON log (storage.rs) is modelled at line
  granularity: a line is either a successfully decodable record (LogLine.valid),
  a nonempty line on which serde_json fails (LogLine.malformed), or an empty
  line (LogLine.blank). The store medium is StoreState: the file may be
  missing, present with a list of lines, or unreadable (an I/O error state
  on which read_to_string / File open return Err).
-/

/-- Model of SystemMetrics (monitor.rs lines 5-18). Byte and counter fields
are u64/usize modelled as Nat; percent fields are f32 modelled as Rat; the
chrono timestamp is modelled as a Nat instant. -/
structure SystemMetrics where
  timestamp : Nat
  cpu_usage : Rat
  memory_used : Nat
  memory_total : Nat
  memory_usage_percent : Rat
  disk_used : Nat
  disk_total : Nat
  disk_usage_percent : Rat
  network_rx : Nat
  network_tx : Nat
  processes_count : Nat
deriving DecidableEq, Repr

/-- Rust str::trim: remove leading and trailing whitespace characters. -/
def trimChars (s : List Char) : List Char :=
  ((s.dropWhile Char.isWhitespace).reverse.dropWhile Char.isWhitespace).reverse

/-- Rust str::split_whitespace: the maximal nonempty runs of non-whitespace
characters, obtained by splitting at every whitespace character and
dropping the empty fragments. -/
def wsFields (s : List Char) : List (List Char) :=
  (s.splitOnP Char.isWhitespace).filter (fun t => ¬ t.isEmpty)

/-- A nonempty all-digit character sequence read as a decimal Nat; none
otherwise. -/
def parseDigits (s : List Char) : Option Nat :=
  if s.isEmpty then none
  else if s.all Char.isDigit then
    some (s.foldl (fun a c => a * 10 + (c.toNat - 48)) 0)
  else none

/-- Rust u64::from_str composed with unwrap_or(0): an optional leading plus
sign, then decimal digits; a parse failure or a value not fitting in u64
yields 0 (monitor.rs lines 149-150 use parse().unwrap_or(0)). -/
def parseU64 (s : List Char) : Nat :=
  let t := match s with | '+' :: r => r | _ => s
  match parseDigits t with
  | some n => if n < 2 ^ 64 then n else 0
  | none => 0

/-- Model of f32::from_str restricted to the plain decimal notation the
PowerShell probes emit (optional sign, digits, optional fractional part),
returning none on anything else; exponent, inf and nan forms are not
produced by the probes and are not modelled. -/
def parseF32 (s : List Char) : Option Rat :=
  let core : List Char → Option Rat := fun t =>
    match t.splitOn '.' with
    | [ip] => (parseDigits ip).map (fun n => (n : Rat))
    | [ip, fp] =>
      match parseDigits ip, parseDigits fp with
      | some i, some f => some ((i : Rat) + (f : Rat) / (10 : Rat) ^ fp.length)
      | _, _ => none
    | _ => none
  match s with
  | '-' :: r => (core r).map Neg.neg
  | '+' :: r => core r
  | _ => core s

/-- ResourceMonitor::get_network_stats (monitor.rs lines 130-165), as a
function of the probe outcome and the explicit last_network_stats state.
On a successful probe whose stdout trims and splits into exactly two
whitespace-separated fields, both fields are parsed with unwrap_or(0); the
delta against the stored baseline is u64 saturating_sub (Nat subtraction),
(0, 0) when no baseline exists, and the baseline is replaced by the new
cumulative counters. On any other outcome the result is (0, 0) and the
baseline is left unchanged. Returns (deltas, new baseline). -/
def get_network_stats (out : Except Unit (List Char)) (last : Option (Nat × Nat)) :
    (Nat × Nat) × Option (Nat × Nat) :=
  match out with
  | .ok o =>
    match wsFields (trimChars o) with
    | [p0, p1] =>
      let rx := parseU64 p0
      let tx := parseU64 p1
      let result := match last with
        | some (lastRx, lastTx) => (rx - lastRx, tx - lastTx)
        | none => (0, 0)
      (result, some (rx, tx))
    | _ => ((0, 0), last)
  | .error _ => ((0, 0), last)

/-- One-decimal fixed point formatting, model of the Rust format specifier
with precision 1 used in the anomaly messages. -/
def fmt1 (q : Rat) : String :=
  let n : Int := round (q * 10)
  let sign := if n < 0 then "-" else ""
  let m := n.natAbs
  sign ++ toString (m / 10) ++ "." ++ toString (m % 10)

/-- The CPU warning string pushed by check_anomalies (monitor.rs line 188). -/
def cpuWarning (m : SystemMetrics) : String :=
  "Высокая загрузка CPU: " ++ fmt1 m.cpu_usage ++ "%"

/-- The memory warning string pushed by check_anomalies (monitor.rs line 192). -/
def memoryWarning (m : SystemMetrics) : String :=
  "Высокая загрузка памяти: " ++ fmt1 m.memory_usage_percent ++ "%"

/-- The disk warning string pushed by check_anomalies (monitor.rs line 196). -/
def diskWarning (m : SystemMetrics) : String :=
  "Высокая загрузка диска: " ++ fmt1 m.disk_usage_percent ++ "%"

/-- ResourceMonitor::check_anomalies (monitor.rs lines 184-200): a mutable
vector receives, in program order, one warning per percent metric strictly
above 90.0 — CPU first, then memory, then disk. -/
def check_anomalies (m : SystemMetrics) : List String :=
  let anomalies : List String := []
  let anomalies := if m.cpu_usage > 90 then anomalies ++ [cpuWarning m] else anomalies
  let anomalies :=
    if m.memory_usage_percent > 90 then anomalies ++ [memoryWarning m] else anomalies
  let anomalies :=
    if m.disk_usage_percent > 90 then anomalies ++ [diskWarning m] else anomalies
  anomalies

/-- ResourceMonitor::get_cpu_usage (monitor.rs lines 55-72): on a successful
probe, trim stdout and parse as f32 with unwrap_or(0.0); otherwise 0.0. -/
def get_cpu_usage (out : Except Unit (List Char)) : Rat :=
  match out with
  | .ok o => (parseF32 (trimChars o)).getD 0
  | .error _ => 0

/-- ResourceMonitor::get_memory_info (monitor.rs lines 74-100): on a
successful probe whose trimmed stdout splits into exactly three whitespace
fields (total, used, usage), parse each with unwrap_or and return
(used, total, usage); anything else yields (0, 0, 0.0). -/
def get_memory_info (out : Except Unit (List Char)) : Nat × Nat × Rat :=
  match out with
  | .ok o =>
    match wsFields (trimChars o) with
    | [p0, p1, p2] => (parseU64 p1, parseU64 p0, (parseF32 p2).getD 0)
    | _ => (0, 0, 0)
  | .error _ => (0, 0, 0)

/-- ResourceMonitor::get_disk_info (monitor.rs lines 102-128): identical
shape to get_memory_info, over the disk probe output. -/
def get_disk_info (out : Except Unit (List Char)) : Nat × Nat × Rat :=
  match out with
  | .ok o =>
    match wsFields (trimChars o) with
    | [p0, p1, p2] => (parseU64 p1, parseU64 p0, (parseF32 p2).getD 0)
    | _ => (0, 0, 0)
  | .error _ => (0, 0, 0)

/-- ResourceMonitor::get_process_count (monitor.rs lines 167-182): on a
successful probe, trim stdout and parse as usize with unwrap_or(0);
otherwise 0. usize is 64-bit on the target platform. -/
def get_process_count (out : Except Unit (List Char)) : Nat :=
  match out with
  | .ok o => parseU64 (trimChars o)
  | .error _ => 0

/-- The observable outcome of one round of the five PowerShell probe
invocations made by collect_metrics, together with the sampled instant. -/
structure ProbeEnv where
  timestamp : Nat
  cpuOut : Except Unit (List Char)
  memOut : Except Unit (List Char)
  diskOut : Except Unit (List Char)
  netOut : Except Unit (List Char)
  procOut : Except Unit (List Char)

/-- ResourceMonitor::collect_metrics (monitor.rs lines 31-53), as a function
of the probe outcomes and the explicit last_network_stats state; returns the
snapshot and the updated network baseline. -/
def collect_metrics (env : ProbeEnv) (last : Option (Nat × Nat)) :
    SystemMetrics × Option (Nat × Nat) :=
  let cpu_usage := get_cpu_usage env.cpuOut
  let m := get_memory_info env.memOut
  let d := get_disk_info env.diskOut
  let n := get_network_stats env.netOut last
  let processes_count := get_process_count env.procOut
  ({ timestamp := env.timestamp
     cpu_usage := cpu_usage
     memory_used := m.1
     memory_total := m.2.1
     memory_usage_percent := m.2.2
     disk_used := d.1
     disk_total := d.2.1
     disk_usage_percent := d.2.2
     network_rx := n.1.1
     network_tx := n.1.2
     processes_count := processes_count }, n.2)

/-- One line of the persisted newline-delimited log data/metrics.json: a
line that serde_json decodes to a SystemMetrics, a nonempty line it fails
on, or an empty line. -/
inductive LogLine where
  | valid (m : SystemMetrics)
  | malformed (s : String)
  | blank
deriving DecidableEq

/-- The decode of one log line performed inside Storage::load_metrics
(storage.rs lines 37-45): empty lines and undecodable lines yield nothing. -/
def decodeLine : LogLine → Option SystemMetrics
  | .valid m => some m
  | .malformed _ => none
  | .blank => none

/-- State of the persisted store medium: the data file may be absent,
present with a list of lines, or in an unreadable/unwritable I/O error
condition (the case in which File::open / read_to_string return Err). -/
inductive StoreState where
  | missing
  | present (ls : List LogLine)
  | ioError
deriving DecidableEq

/-- Storage::save_metrics (storage.rs lines 18-28): open the data file with
create(true).append(true) — creating it when missing — and append one
encoded record followed by a newline. Returns the new medium state and
whether the call returned Ok. -/
def save_metrics (st : StoreState) (m : SystemMetrics) : StoreState × Bool :=
  match st with
  | .missing => (.present [.valid m], true)
  | .present ls => (.present (ls ++ [.valid m]), true)
  | .ioError => (.ioError, false)

/-- Storage::load_metrics (storage.rs lines 30-47): when the data file does
not exist, return Ok with the empty vector; when it exists, read it whole
and decode each line independently, skipping empty lines and lines that
fail to decode (the latter with a diagnostic); an I/O read failure is
returned as Err. -/
def load_metrics (st : StoreState) : Except Unit (List SystemMetrics) :=
  match st with
  | .missing => .ok []
  | .present ls => .ok (ls.filterMap decodeLine)
  | .ioError => .error ()

/-- The diagnostic channel of Storage::load_metrics: the nonempty lines
reported on stderr because their decode failed. -/
def load_skipped (st : StoreState) : List String :=
  match st with
  | .present ls => ls.filterMap (fun l => match l with | .malformed s => some s | _ => none)
  | _ => []

/-- Storage::cleanup_old_records (storage.rs lines 49-61): load all records
(propagating a load error); when strictly more than max_records decoded,
drain the oldest excess and rewrite the file with the survivors, one
encoded record per line, oldest first; otherwise leave the file untouched.
Returns the new medium state and whether the call returned Ok. -/
def cleanup_old_records (st : StoreState) (max_records : Nat) : StoreState × Bool :=
  match st with
  | .missing => (.missing, true)
  | .ioError => (.ioError, false)
  | .present ls =>
    let metrics := ls.filterMap decodeLine
    if metrics.length > max_records then
      (.present ((metrics.drop (metrics.length - max_records)).map .valid), true)
    else (.present ls, true)

/-- Appending a list of snapshots to the store in order, one save_metrics
call per snapshot (the per-tick append of the orchestrator loop, iterated). -/
def saveAll (st : StoreState) (ms : List SystemMetrics) : StoreState :=
  ms.foldl (fun s m => (save_metrics s m).1) st

/-- The two possible replies of the /metrics route. -/
inductive MetricsReply where
  | json (m : SystemMetrics)
  | notFound
deriving DecidableEq

/-- The /metrics route handler (main.rs lines 151-160): read the shared
current-metrics slot; reply with the JSON snapshot when it holds one, and
reject with not_found when it still holds None. -/
def metrics_route (slot : Option SystemMetrics) : MetricsReply :=
  match slot with
  | some m => .json m
  | none => .notFound

/-- The two possible replies of the /history route. -/
inductive HistoryReply where
  | jsonList (ms : List SystemMetrics)
  | notFound
deriving DecidableEq

/-- The /history route handler (main.rs lines 162-170): load the full store;
reply with the JSON array on Ok and reject with not_found on Err. -/
def history_route (st : StoreState) : HistoryReply :=
  match load_metrics st with
  | .ok ms => .jsonList ms
  | .error _ => .notFound

/-- The observable steps of one iteration of the run_service loop body
(main.rs lines 108-136), in the order the statements execute. -/
inductive Step where
  | collectStep
  | detectStep
  | warnLog
  | appendStore
  | appendFailLog
  | publish
  | cleanupStore
  | cleanupFailLog
  | statusLog
deriving DecidableEq, Repr

/-- The mutable state threaded through the run_service loop: the monitor
network baseline, the store medium, and the shared current-metrics slot. -/
structure LoopState where
  lastNet : Option (Nat × Nat)
  store : StoreState
  slot : Option SystemMetrics

/-- One iteration of the run_service loop body (main.rs lines 108-136):
collect metrics, check anomalies (printing a warning line when any),
save to the store (logging on Err and continuing), overwrite the shared
slot under the write lock, clean up old records (logging on Err and
continuing), and print the status line. Returns the new state and the
trace of executed steps, in program order. -/
def tick (env : ProbeEnv) (max_records : Nat) (st : LoopState) :
    LoopState × List Step :=
  let c := collect_metrics env st.lastNet
  let metrics := c.1
  let anomalies := check_anomalies metrics
  let warnEvents : List Step := if anomalies.isEmpty then [] else [.warnLog]
  let s := save_metrics st.store metrics
  let saveEvents : List Step := if s.2 then [] else [.appendFailLog]
  let newSlot : Option SystemMetrics := some metrics
  let k := cleanup_old_records s.1 max_records
  let cleanEvents : List Step := if k.2 then [] else [.cleanupFailLog]
  ({ lastNet := c.2, store := k.1, slot := newSlot },
   [.collectStep, .detectStep] ++ warnEvents ++ [.appendStore] ++ saveEvents ++
     [.publish, .cleanupStore] ++ cleanEvents ++ [.statusLog])

/-!
Model for the SharedLatestState concurrency claim. The shared slot is a
record of machine words guarded by the tokio RwLock (main.rs line 85); the
loop replaces the whole record while holding the write guard (lines
123-126) and the /metrics handler reads it while holding a read guard
(lines 155-158). To make torn reads expressible, the replace and the read
are decomposed into per-field micro-operations; the lock acquisitions and
releases are explicit operations with the RwLock admission rules as guards.
An execution is an arbitrary interleaving of the writer and the reader
operation sequences, and a schedule that violates a guard is rejected (the
real lock would instead suspend the task at that point, which only removes
schedules). Field contents are modelled as Nat and a snapshot of k fields
as a function from field index to value. -/

/-- A micro-operation of either the publishing loop or the reading handler:
acquire/release of the write or read side of the RwLock, a single-field
write of the new snapshot, or a single-field read. -/
inductive LockOp where
  | acqW
  | relW
  | writeAt (i : Nat) (v : Nat)
  | acqR
  | relR
  | readAt (i : Nat)
deriving DecidableEq, Repr

/-- The shared memory, lock state, and the values the reader has collected
so far. -/
structure LockWorld where
  mem : Nat → Nat
  wHeld : Bool
  rHeld : Bool
  collected : List Nat

/-- One micro-step: the guards are the tokio RwLock admission rules (a
writer is admitted only when no guard is outstanding, a reader only when no
writer holds), and field accesses require the corresponding guard. A
violated guard rejects the schedule. -/
def lockStep (s : LockWorld) : LockOp → Option LockWorld
  | .acqW => if s.wHeld = false ∧ s.rHeld = false
      then some { s with wHeld := true } else none
  | .relW => if s.wHeld then some { s with wHeld := false } else none
  | .writeAt i v => if s.wHeld
      then some { s with mem := fun j => if j = i then v else s.mem j } else none
  | .acqR => if s.wHeld = false then some { s with rHeld := true } else none
  | .relR => if s.rHeld then some { s with rHeld := false } else none
  | .readAt i => if s.rHeld
      then some { s with collected := s.collected ++ [s.mem i] } else none

/-- Running a schedule of micro-operations from a world, failing when any
guard is violated. -/
def lockRun (s : LockWorld) : List LockOp → Option LockWorld
  | [] => some s
  | o :: tr => (lockStep s o).bind (fun s2 => lockRun s2 tr)

/-- The writer operation sequence for publishing a k-field snapshot newF:
acquire the write guard, store every field of the new snapshot, release.
This is the micro-decomposition of the slot assignment at main.rs line 125,
performed entirely under the write lock of line 124. -/
def writerOps (k : Nat) (newF : Nat → Nat) : List LockOp :=
  [.acqW] ++ (List.range k).map (fun i => .writeAt i (newF i)) ++ [.relW]

/-- The reader operation sequence for the /metrics handler: acquire a read
guard, load every field of the slot, release (main.rs lines 155-158). -/
def readerOps (k : Nat) : List LockOp :=
  [.acqR] ++ (List.range k).map .readAt ++ [.relR]

/-- An arbitrary interleaving of two operation sequences, the schedules the
two concurrent tasks can produce. -/
inductive Interleave : List LockOp → List LockOp → List LockOp → Prop where
  | nil : Interleave [] [] []
  | left {x : LockOp} {xs ys tr : List LockOp} :
      Interleave xs ys tr → Interleave (x :: xs) ys (x :: tr)
  | right {y : LockOp} {xs ys tr : List LockOp} :
      Interleave xs ys tr → Interleave xs (y :: ys) (y :: tr)

/-- A snapshot with the given capture instant and all readings zero, used as
a concrete test vector. -/
def atTime (t : Nat) : SystemMetrics :=
  { timestamp := t
    cpu_usage := 0
    memory_used := 0
    memory_total := 0
    memory_usage_percent := 0
    disk_used := 0
    disk_total := 0
    disk_usage_percent := 0
    network_rx := 0
    network_tx := 0
    processes_count := 0 }

/-- C1: for consecutive cumulative counter readings, the computed delta is
the saturating difference cur - prev (equal to the exact difference when
cur is at least prev, and 0 when cur decreased), in both the rx and the tx
direction; and with no stored baseline the deltas are (0, 0) whatever the
probe produced. -/
theorem network_delta_correct :
    (∀ out : Except Unit (List Char), (get_network_stats out none).1 = (0, 0)) ∧
    (∀ (o a b : List Char) (lastRx lastTx : Nat),
      wsFields (trimChars o) = [a, b] →
      (get_network_stats (.ok o) (some (lastRx, lastTx))).1 =
        ((if lastRx ≤ parseU64 a then parseU64 a - lastRx else 0),
         (if lastTx ≤ parseU64 b then parseU64 b - lastTx else 0))) := by
  constructor
  · intro out
    cases out with
    | error e => rfl
    | ok o =>
      rcases h : wsFields (trimChars o) with _ | ⟨x, _ | ⟨y, _ | _⟩⟩ <;>
        simp [get_network_stats, h]
  · intro o a b lastRx lastTx h
    simp only [get_network_stats, h, Prod.mk.injEq]
    constructor <;> split_ifs <;> omega

/-- Witness for C1 at the concrete probe output with counters (1500, 300)
against the stored baseline (1000, 400): the rx delta is 500 and the tx
delta saturates to 0. -/
theorem network_delta_correct_witness :
    wsFields (trimChars "1500 300".data) = ["1500".data, "300".data] ∧
    (get_network_stats (.ok "1500 300".data) (some (1000, 400))).1 =
      ((if 1000 ≤ parseU64 "1500".data then parseU64 "1500".data - 1000 else 0),
       (if 400 ≤ parseU64 "300".data then parseU64 "300".data - 400 else 0)) :=
  ⟨by decide,
   network_delta_correct.2 "1500 300".data "1500".data "300".data 1000 400 (by decide)⟩

/-- C10: when the network probe fails, or its output is not exactly two
whitespace-separated fields, the deltas are (0, 0) and the stored baseline
is unchanged; consequently the next successful read computes its delta
against the last successfully sampled counters. -/
theorem network_failure_keeps_baseline :
    (∀ last, get_network_stats (.error ()) last = ((0, 0), last)) ∧
    (∀ (o : List Char) last, (wsFields (trimChars o)).length ≠ 2 →
      get_network_stats (.ok o) last = ((0, 0), last)) ∧
    (∀ (o : List Char) last,
      get_network_stats (.ok o) ((get_network_stats (.error ()) last).2) =
        get_network_stats (.ok o) last) := by
  refine ⟨fun last => rfl, ?_, fun o last => rfl⟩
  intro o last h
  rcases hw : wsFields (trimChars o) with _ | ⟨x, _ | ⟨y, _ | _⟩⟩ <;>
    simp_all [get_network_stats]

/-- Witness for C10 at a one-field probe output and the baseline (5, 7):
the call returns deltas (0, 0) and keeps the baseline. -/
theorem network_failure_keeps_baseline_witness :
    (wsFields (trimChars "garbage".data)).length ≠ 2 ∧
    get_network_stats (.ok "garbage".data) (some (5, 7)) = ((0, 0), some (5, 7)) :=
  ⟨by decide,
   network_failure_keeps_baseline.2.1 "garbage".data (some (5, 7)) (by decide)⟩

/-- C2: the anomaly check returns, in the fixed order CPU then memory then
disk, exactly one warning per percent metric strictly above 90.0, and hence
the empty list when no metric exceeds 90.0. -/
theorem check_anomalies_correct (m : SystemMetrics) :
    check_anomalies m =
      (if m.cpu_usage > 90 then [cpuWarning m] else []) ++
      (if m.memory_usage_percent > 90 then [memoryWarning m] else []) ++
      (if m.disk_usage_percent > 90 then [diskWarning m] else []) := by
  simp only [check_anomalies]
  split_ifs <;> simp

/-- C6: the /metrics route replies with the JSON of the published snapshot
when the shared slot holds one, and replies not-found exactly when the slot
still holds None (no tick has completed). -/
theorem metrics_route_correct :
    (∀ m, metrics_route (some m) = .json m) ∧
    (∀ slot, metrics_route slot = .notFound ↔ slot = none) := by
  refine ⟨fun m => rfl, fun slot => ?_⟩
  cases slot <;> simp [metrics_route]

/-- C9: loading a store whose data file does not exist succeeds with the
empty sequence, so /history before any record was written replies with the
empty array; the not-found reply is produced for the unreadable store. -/
theorem missing_store_loads_empty :
    load_metrics .missing = .ok [] ∧
    history_route .missing = .jsonList [] ∧
    history_route .ioError = .notFound :=
  ⟨rfl, rfl, rfl⟩

/-- C5: loading skips every line that fails to decode while still returning
all decodable lines in order — removing a malformed line from the file does
not change the loaded sequence, the skipped line is reported on the
diagnostic channel, and a log of two valid records with one malformed line
between them loads exactly the two records. -/
theorem load_skips_malformed_lines :
    (∀ (s : String) (ls1 ls2 : List LogLine),
      load_metrics (.present (ls1 ++ .malformed s :: ls2)) =
        load_metrics (.present (ls1 ++ ls2))) ∧
    (∀ (s : String) (ls1 ls2 : List LogLine),
      load_skipped (.present (ls1 ++ .malformed s :: ls2)) =
        load_skipped (.present ls1) ++ s :: load_skipped (.present ls2)) ∧
    (∀ (s : String) (m1 m2 : SystemMetrics),
      load_metrics (.present [.valid m1, .malformed s, .valid m2]) = .ok [m1, m2]) := by
  refine ⟨?_, ?_, ?_⟩
  · intro s ls1 ls2
    simp [load_metrics, decodeLine]
  · intro s ls1 ls2
    simp [load_skipped]
  · intro s m1 m2
    simp [load_metrics, decodeLine]

/-- Helper: appending one record to a loadable store extends the loaded
sequence by that record. -/
theorem load_metrics_save (st : StoreState) (m : SystemMetrics)
    (ms : List SystemMetrics) (h : load_metrics st = .ok ms) :
    load_metrics (save_metrics st m).1 = .ok (ms ++ [m]) := by
  cases st with
  | missing =>
    simp only [load_metrics] at h
    cases h
    simp [load_metrics, save_metrics, decodeLine]
  | present ls =>
    simp only [load_metrics] at h
    cases h
    simp [load_metrics, save_metrics, decodeLine]
  | ioError => simp [load_metrics] at h

/-- C4: appending snapshots S1..Sn in order to a loadable store and then
loading yields the prior contents followed by exactly S1..Sn, in order; in
particular the round trip from the fresh store returns exactly S1..Sn. -/
theorem store_roundtrip :
    ∀ (ms : List SystemMetrics) (st : StoreState) (prior : List SystemMetrics),
      load_metrics st = .ok prior →
      load_metrics (saveAll st ms) = .ok (prior ++ ms) := by
  intro ms
  induction ms with
  | nil =>
    intro st prior h
    simpa [saveAll] using h
  | cons m ms ih =>
    intro st prior h
    have h1 := load_metrics_save st m prior h
    have h2 := ih (save_metrics st m).1 (prior ++ [m]) h1
    simpa [saveAll] using h2

/-- Witness for C4: saving the snapshots at instants 1 and 2 into the fresh
(missing-file) store and loading returns exactly those two snapshots. -/
theorem store_roundtrip_witness :
    load_metrics StoreState.missing = .ok [] ∧
    load_metrics (saveAll .missing [atTime 1, atTime 2]) =
      .ok ([] ++ [atTime 1, atTime 2]) :=
  ⟨rfl, store_roundtrip [atTime 1, atTime 2] .missing [] rfl⟩

/-- C3: when the store holds more records than max_records, retention
enforcement leaves exactly the newest max_records records, in their
original oldest-first order. -/
theorem cleanup_retention_correct :
    ∀ (st : StoreState) (max_records : Nat) (ms : List SystemMetrics),
      load_metrics st = .ok ms →
      ms.length > max_records →
      load_metrics (cleanup_old_records st max_records).1 =
          .ok (ms.drop (ms.length - max_records)) ∧
        (ms.drop (ms.length - max_records)).length = max_records := by
  intro st max_records ms h hlen
  cases st with
  | missing =>
    simp only [load_metrics] at h
    cases h
    simp at hlen
  | ioError => simp [load_metrics] at h
  | present ls =>
    simp only [load_metrics] at h
    cases h
    constructor
    · simp only [cleanup_old_records, if_pos hlen, load_metrics, Except.ok.injEq]
      rw [List.filterMap_map]
      have hcomp : decodeLine ∘ LogLine.valid = some := rfl
      rw [hcomp, List.filterMap_some]
    · rw [List.length_drop]
      omega

/-- Witness for C3: with stored records at instants 1 < 2 < 3 and
max_records = 2, enforcement leaves exactly the records at instants 2 and 3
in that order. -/
theorem cleanup_retention_correct_witness :
    load_metrics (.present [.valid (atTime 1), .valid (atTime 2), .valid (atTime 3)]) =
      .ok [atTime 1, atTime 2, atTime 3] ∧
    [atTime 1, atTime 2, atTime 3].length > 2 ∧
    (load_metrics
        (cleanup_old_records
          (.present [.valid (atTime 1), .valid (atTime 2), .valid (atTime 3)]) 2).1 =
        .ok ([atTime 1, atTime 2, atTime 3].drop
          ([atTime 1, atTime 2, atTime 3].length - 2)) ∧
      ([atTime 1, atTime 2, atTime 3].drop
        ([atTime 1, atTime 2, atTime 3].length - 2)).length = 2) ∧
    [atTime 1, atTime 2, atTime 3].drop
        ([atTime 1, atTime 2, atTime 3].length - 2) = [atTime 2, atTime 3] :=
  ⟨by simp [load_metrics, decodeLine], by simp,
   cleanup_retention_correct
     (.present [.valid (atTime 1), .valid (atTime 2), .valid (atTime 3)]) 2
     [atTime 1, atTime 2, atTime 3] (by simp [load_metrics, decodeLine]) (by simp),
   by simp⟩

/-- C7: every loop iteration executes collect, detect (with a warning line
exactly when anomalies were found), append (with an error line on failure),
publish, retention (with an error line on failure) and the status line, in
that order and all of them: the trace is the fixed sequence, publish always
precedes retention, the published slot holds the snapshot just collected,
the store ends as retention-after-append left it, and the iteration reaches
its final statement even when the append or the retention step failed. -/
theorem tick_order_correct :
    ∀ (env : ProbeEnv) (max_records : Nat) (st : LoopState),
      (tick env max_records st).2 =
          [.collectStep, .detectStep] ++
            (if (check_anomalies (collect_metrics env st.lastNet).1).isEmpty then []
              else [.warnLog]) ++
            [.appendStore] ++
            (if (save_metrics st.store (collect_metrics env st.lastNet).1).2 then []
              else [.appendFailLog]) ++
            [.publish, .cleanupStore] ++
            (if (cleanup_old_records
                  (save_metrics st.store (collect_metrics env st.lastNet).1).1
                  max_records).2 then []
              else [.cleanupFailLog]) ++
            [.statusLog] ∧
        (tick env max_records st).1.slot = some (collect_metrics env st.lastNet).1 ∧
        (tick env max_records st).1.store =
          (cleanup_old_records
            (save_metrics st.store (collect_metrics env st.lastNet).1).1
            max_records).1 ∧
        (tick env max_records st).2.indexOf .collectStep <
          (tick env max_records st).2.indexOf .detectStep ∧
        (tick env max_records st).2.indexOf .detectStep <
          (tick env max_records st).2.indexOf .appendStore ∧
        (tick env max_records st).2.indexOf .appendStore <
          (tick env max_records st).2.indexOf .publish ∧
        (tick env max_records st).2.indexOf .publish <
          (tick env max_records st).2.indexOf .cleanupStore ∧
        Step.statusLog ∈ (tick env max_records st).2 := by
  intro env max_records st
  have htr : (tick env max_records st).2 =
      [.collectStep, .detectStep] ++
        (if (check_anomalies (collect_metrics env st.lastNet).1).isEmpty then []
          else [.warnLog]) ++
        [.appendStore] ++
        (if (save_metrics st.store (collect_metrics env st.lastNet).1).2 then []
          else [.appendFailLog]) ++
        [.publish, .cleanupStore] ++
        (if (cleanup_old_records
              (save_metrics st.store (collect_metrics env st.lastNet).1).1
              max_records).2 then []
          else [.cleanupFailLog]) ++
        [.statusLog] := rfl
  refine ⟨htr, rfl, rfl, ?_⟩
  rw [htr]
  rcases (check_anomalies (collect_metrics env st.lastNet).1).isEmpty with _ | _ <;>
    rcases (save_metrics st.store (collect_metrics env st.lastNet).1).2 with _ | _ <;>
    rcases (cleanup_old_records
        (save_metrics st.store (collect_metrics env st.lastNet).1).1
        max_records).2 with _ | _ <;>
    exact ⟨by decide, by decide, by decide, by decide, by decide⟩

/-- An interleaving whose left component is empty is the right component. -/
theorem interleave_nil_left {ys tr : List LockOp} (h : Interleave [] ys tr) :
    tr = ys := by
  suffices h2 : ∀ xs ys2 tr2, Interleave xs ys2 tr2 → xs = [] → tr2 = ys2 from
    h2 [] ys tr h rfl
  intro xs ys2 tr2 h2
  induction h2 with
  | nil => intro; rfl
  | left _ _ => intro hx; cases hx
  | right _ ih => intro hx; rw [ih hx]

/-- An interleaving whose right component is empty is the left component. -/
theorem interleave_nil_right {xs tr : List LockOp} (h : Interleave xs [] tr) :
    tr = xs := by
  suffices h2 : ∀ xs2 ys tr2, Interleave xs2 ys tr2 → ys = [] → tr2 = xs2 from
    h2 xs [] tr h rfl
  intro xs2 ys tr2 h2
  induction h2 with
  | nil => intro; rfl
  | left _ ih => intro hy; rw [ih hy]
  | right _ _ => intro hy; cases hy

/-- Sequential composition is one of the interleavings of two sequences. -/
theorem interleave_append (xs ys : List LockOp) : Interleave xs ys (xs ++ ys) := by
  induction xs with
  | nil =>
    induction ys with
    | nil => exact .nil
    | cons y ys ih => exact .right ih
  | cons x xs ih => exact .left ih

/-- Running a concatenation of schedules is running the pieces in turn. -/
theorem lockRun_append (s : LockWorld) (l1 l2 : List LockOp) :
    lockRun s (l1 ++ l2) = (lockRun s l1).bind (fun s2 => lockRun s2 l2) := by
  induction l1 generalizing s with
  | nil => simp [lockRun]
  | cons o l1 ih =>
    cases h : lockStep s o with
    | none => simp [lockRun, h]
    | some s2 => simp [lockRun, h, ih]

/-- Running the field stores of the writer while the write guard is held: every
store succeeds and the memory ends holding the new value at every written
index and the old value elsewhere. -/
theorem lockRun_writes (newF : Nat → Nat) (L : List Nat) (s : LockWorld)
    (hw : s.wHeld = true) :
    lockRun s (L.map (fun i => LockOp.writeAt i (newF i))) =
      some { s with mem := fun j => if j ∈ L then newF j else s.mem j } := by
  induction L generalizing s with
  | nil =>
    simp only [List.map_nil, lockRun]
    congr 1
  | cons i L ih =>
    simp only [List.map_cons, lockRun, lockStep, hw, if_true, Option.some_bind]
    rw [ih _ rfl]
    congr 2
    funext j
    by_cases hL : j ∈ L <;> by_cases hi : j = i <;>
      simp [hL, hi, List.mem_cons]

/-- Running the field loads of the reader while the read guard is held: every
load succeeds, the memory is untouched, and the collected values extend by
the current memory at the read indices, in order. -/
theorem lockRun_reads (L : List Nat) (s : LockWorld) (hr : s.rHeld = true) :
    lockRun s (L.map LockOp.readAt) =
      some { s with collected := s.collected ++ L.map s.mem } := by
  induction L generalizing s with
  | nil =>
    simp only [List.map_nil, lockRun, List.append_nil]
  | cons i L ih =>
    simp only [List.map_cons, lockRun, lockStep, hr, if_true, Option.some_bind]
    rw [ih _ rfl]
    congr 2
    simp

/-- While the write guard is held and the reader is still waiting on its
read-guard acquisition, a guard-respecting schedule must run the writer
remaining operations, through its release, before any reader operation. -/
theorem writer_blocks_reader :
    ∀ (ws rrest tr : List LockOp) (s f : LockWorld),
      (∀ o ∈ ws, ∃ i v, o = LockOp.writeAt i v) →
      s.wHeld = true →
      Interleave (ws ++ [LockOp.relW]) (LockOp.acqR :: rrest) tr →
      lockRun s tr = some f →
      tr = ws ++ [LockOp.relW] ++ LockOp.acqR :: rrest := by
  intro ws
  induction ws with
  | nil =>
    intro rrest tr s f _ hw hint hrun
    cases hint with
    | left h2 =>
      rw [interleave_nil_left h2]
      rfl
    | right h2 =>
      exfalso
      simp [lockRun, lockStep, hw] at hrun
  | cons o ws ih =>
    intro rrest tr s f hws hw hint hrun
    obtain ⟨i, v, rfl⟩ := hws o (List.mem_cons_self o ws)
    cases hint with
    | left h2 =>
      simp only [lockRun, lockStep, hw, if_true, Option.some_bind] at hrun
      have htr2 := ih rrest _ _ f
        (fun o2 ho2 => hws o2 (List.mem_cons_of_mem _ ho2)) rfl h2 hrun
      rw [htr2]
      rfl
    | right h2 =>
      exfalso
      simp [lockRun, lockStep, hw] at hrun

/-- While the read guard is held and the writer is still waiting on its
write-guard acquisition, a guard-respecting schedule must run the reader
remaining operations, through its release, before any writer operation. -/
theorem reader_blocks_writer :
    ∀ (rs wrest tr : List LockOp) (s f : LockWorld),
      (∀ o ∈ rs, ∃ i, o = LockOp.readAt i) →
      s.rHeld = true →
      Interleave (LockOp.acqW :: wrest) (rs ++ [LockOp.relR]) tr →
      lockRun s tr = some f →
      tr = rs ++ [LockOp.relR] ++ LockOp.acqW :: wrest := by
  intro rs
  induction rs with
  | nil =>
    intro wrest tr s f _ hr hint hrun
    cases hint with
    | left h2 =>
      exfalso
      simp [lockRun, lockStep, hr] at hrun
    | right h2 =>
      rw [interleave_nil_right h2]
      rfl
  | cons o rs ih =>
    intro wrest tr s f hrs hr hint hrun
    obtain ⟨i, rfl⟩ := hrs o (List.mem_cons_self o rs)
    cases hint with
    | left h2 =>
      exfalso
      simp [lockRun, lockStep, hr] at hrun
    | right h2 =>
      simp only [lockRun, lockStep, hr, if_true, Option.some_bind] at hrun
      have htr2 := ih wrest _ _ f
        (fun o2 ho2 => hrs o2 (List.mem_cons_of_mem _ ho2)) rfl h2 hrun
      rw [htr2]
      rfl

/-- C8: a /metrics read issued concurrently with a publish never observes a
torn snapshot: in every guard-respecting interleaving of the publishing
writer and one reader, the reader collects either the previous snapshot or
the newly published one, field for field. -/
theorem shared_latest_no_torn_read :
    ∀ (k : Nat) (oldF newF : Nat → Nat) (tr : List LockOp) (f : LockWorld),
      Interleave (writerOps k newF) (readerOps k) tr →
      lockRun { mem := oldF, wHeld := false, rHeld := false, collected := [] } tr =
        some f →
      f.collected = (List.range k).map oldF ∨
        f.collected = (List.range k).map newF := by
  intro k oldF newF tr f hint hrun
  simp only [writerOps, readerOps, List.cons_append, List.nil_append] at hint
  cases hint with
  | left h2 =>
    simp only [lockRun, lockStep, and_self, eq_self_iff_true, if_true,
      Option.some_bind] at hrun
    have hws : ∀ o ∈ (List.range k).map (fun i => LockOp.writeAt i (newF i)),
        ∃ i v, o = LockOp.writeAt i v := by
      intro o ho
      simp only [List.mem_map] at ho
      obtain ⟨i, _, rfl⟩ := ho
      exact ⟨i, newF i, rfl⟩
    have htr2 := writer_blocks_reader _ _ _ _ f hws rfl h2 hrun
    subst htr2
    rw [List.append_assoc, lockRun_append, lockRun_writes newF _ _ rfl] at hrun
    simp only [Option.some_bind, List.singleton_append, lockRun, lockStep,
      and_self, eq_self_iff_true, if_true] at hrun
    rw [lockRun_append, lockRun_reads _ _ rfl] at hrun
    simp only [Option.some_bind, lockRun, lockStep, if_true,
      Option.some.injEq] at hrun
    right
    rw [← hrun]
    simp only [List.nil_append]
    exact List.map_congr_left (fun j hj => by simp [hj])
  | right h2 =>
    simp only [lockRun, lockStep, eq_self_iff_true, if_true,
      Option.some_bind] at hrun
    have hrs : ∀ o ∈ (List.range k).map LockOp.readAt,
        ∃ i, o = LockOp.readAt i := by
      intro o ho
      simp only [List.mem_map] at ho
      obtain ⟨i, _, rfl⟩ := ho
      exact ⟨i, rfl⟩
    have htr2 := reader_blocks_writer _ _ _ _ f hrs rfl h2 hrun
    subst htr2
    rw [List.append_assoc, lockRun_append, lockRun_reads _ _ rfl] at hrun
    simp only [Option.some_bind, List.singleton_append, lockRun, lockStep,
      and_self, eq_self_iff_true, if_true] at hrun
    rw [lockRun_append, lockRun_writes newF _ _ rfl] at hrun
    simp only [Option.some_bind, lockRun, lockStep, if_true,
      Option.some.injEq] at hrun
    left
    rw [← hrun]
    simp

/-- Witness for C8 at two-field snapshots: the previous slot holds fields
(5, 6) and the writer publishes (7, 8); the sequential schedule is one
admissible interleaving, and the reader collects one of the two snapshots
whole. -/
theorem shared_latest_no_torn_read_witness :
    ∃ f : LockWorld,
      lockRun
          { mem := fun j => j + 5, wHeld := false, rHeld := false, collected := [] }
          (writerOps 2 (fun j => j + 7) ++ readerOps 2) = some f ∧
        (f.collected = (List.range 2).map (fun j => j + 5) ∨
          f.collected = (List.range 2).map (fun j => j + 7)) := by
  obtain ⟨f, hf⟩ :
      ∃ f, lockRun
        { mem := fun j => j + 5, wHeld := false, rHeld := false, collected := [] }
        (writerOps 2 (fun j => j + 7) ++ readerOps 2) = some f := ⟨_, rfl⟩
  exact ⟨f, hf,
    shared_latest_no_torn_read 2 (fun j => j + 5) (fun j => j + 7) _ f
      (interleave_append _ _) hf⟩
